import Mathlib

/-!
# Verification of the binkit core against its specification

Shallow embedding of the binkit repository's core logic:

* the npm version resolver (`src/cli/src/npm.ts`, `calculatePackageVersion`)
  and its registry-fetch error handling (`fetchPublishedMetadata`), together
  with the CLI's duplicated inline resolver
  (`src/cli/src/commands/generate.ts`, `calculatePackageVersion`);
* the acquisition pipeline of `src/cli/src/commands/generate.ts`
  (`downloadAndExtract`) and of `src/generator/src/download.ts`
  (`extractToVendor`, `verifyBinaries`, `downloadAndExtractPlatform`);
* the runtime invocation layer (`buildEnv`, `runBinary`,
  `createBinaryRunner`, `getVendorDir`, `getLibraryPathEnvVar`) and the
  template-generated facade runners;
* the registry types helper `getTargetId` (`src/registry/src/types.ts`).

JavaScript strings are modelled as `List Char`.  JavaScript numbers appear
here only as integer version components; `NaN` propagation through
`parseInt`/`Math.max` is modelled with `Option Int` (`none` = `NaN`).
-/

/-! ## JavaScript string primitives used by the sources -/

/-- JavaScript `String.prototype.split(sep)` for a single-character
separator: `"a.b".split('.') = ["a","b"]`, `"".split('.') = [""]`,
`"a..b".split('.') = ["a","","b"]`.  The result is always nonempty. -/
def splitOnChar (sep : Char) : List Char → List (List Char)
  | [] => [[]]
  | c :: rest =>
    if c = sep then [] :: splitOnChar sep rest
    else
      match splitOnChar sep rest with
      | [] => [[c]]
      | seg :: segs => (c :: seg) :: segs

/-- Numeric value of a digit character (`c.charCodeAt(0) - 48`). -/
def charVal (c : Char) : Nat := c.toNat - 48

/-- Decimal value of a digit string, most significant digit first
(the accumulation performed by a base-10 positional parse). -/
def parseDigits (s : List Char) : Nat :=
  s.foldl (fun a c => 10 * a + charVal c) 0

/-- Decimal digit characters of `n`, most significant first, empty for `0`.
`fuel` bounds the recursion (any `fuel ≥ n` is exact). -/
def natDigitsRev (fuel : Nat) (n : Nat) : List Char :=
  match fuel with
  | 0 => []
  | fuel + 1 =>
    if n = 0 then []
    else natDigitsRev fuel (n / 10) ++ [(Nat.digitChar (n % 10))]

/-- JavaScript rendering of a nonnegative number to decimal text,
as performed by template-literal interpolation. -/
def renderNat (n : Nat) : List Char :=
  if n = 0 then ['0'] else natDigitsRev n n

/-- JavaScript rendering of an integer (template-literal interpolation). -/
def renderInt (i : Int) : List Char :=
  if i < 0 then '-' :: renderNat i.natAbs else renderNat i.toNat

/-- Longest leading run of decimal digits, interpreted in base 10;
`none` when the string does not start with a digit (JS `NaN`). -/
def parseLeadingNat (s : List Char) : Option Nat :=
  let ds := s.takeWhile (fun c => c.isDigit)
  if ds.isEmpty then none else some (parseDigits ds)

/-- JavaScript `parseInt(s, 10)` on registry text: an optional sign followed
by leading decimal digits; `none` models `NaN`.  (Leading-whitespace
skipping of `parseInt` is omitted: registry version segments carry none.) -/
def parseIntJS : List Char → Option Int
  | [] => none
  | c :: rest =>
    if c = '-' then (parseLeadingNat rest).map (fun n => -(n : Int))
    else if c = '+' then (parseLeadingNat rest).map (fun n => (n : Int))
    else (parseLeadingNat (c :: rest)).map (fun n => (n : Int))

/-- JavaScript `a || b` on an optionally-present string value: an absent or
empty string is falsy and yields the fallback. -/
def jsOr (a : Option (List Char)) (dflt : List Char) : List Char :=
  match a with
  | some s => if s.isEmpty then dflt else s
  | none => dflt

/-- `Math.max` on two values, with `none` modelling `NaN` poisoning. -/
def jsMax : Option Int → Option Int → Option Int
  | some a, some b => some (max a b)
  | _, _ => none

/-- `Math.max(...xs)` over a nonempty spread (the sources only apply it to
nonempty arrays); `none` models `NaN`. -/
def jsMaxList : List (Option Int) → Option Int
  | [] => none
  | x :: xs => xs.foldl jsMax x

/-! ## Version resolver (`src/cli/src/npm.ts`) -/

/-- `FRAMEWORK_MAJOR_VERSION` from `src/cli/src/constants.ts`. -/
def FRAMEWORK_MAJOR_VERSION : Nat := 0

/-- `upstreamVersion.split('.')[0]` — npm.ts line 67. -/
def upstreamMajorOf (v : List Char) : List Char :=
  (splitOnChar '.' v).headD []

/-- The matched published-version text
`` `${FRAMEWORK_MAJOR_VERSION}.${upstreamMajor}.` `` — npm.ts line 70. -/
def versionPrefixOf (v : List Char) : List Char :=
  renderNat FRAMEWORK_MAJOR_VERSION ++ '.' :: (upstreamMajorOf v ++ ['.'])

/-- `calculatePackageVersion` from `src/cli/src/npm.ts` lines 62–85 (the CLI
duplicate in `generate.ts` lines 153–164 computes the same function of its
`publishedVersions`): filter the published versions by the
`{framework}.{upstreamMajor}.` text, then return patch `0` if none match,
otherwise `max patch + 1` where each patch is `parseInt(v.slice(prefixLen), 10)`
and `Math.max` propagates `NaN`. -/
def calculatePackageVersion (upstreamVersion : List Char)
    (publishedVersions : List (List Char)) : List Char :=
  let pfx := versionPrefixOf upstreamVersion
  let matchingVersions := publishedVersions.filter (fun w => pfx.isPrefixOf w)
  if matchingVersions.length = 0 then
    pfx ++ renderNat 0
  else
    let patches := matchingVersions.map (fun w => parseIntJS (w.drop pfx.length))
    match jsMaxList patches with
    | none => pfx ++ "NaN".toList
    | some maxPatch => pfx ++ renderInt (maxPatch + 1)

/-! ## Sanity lemmas for the string primitives -/

theorem parseDigits_append_singleton (s : List Char) (c : Char) :
    parseDigits (s ++ [c]) = 10 * parseDigits s + charVal c := by
  simp [parseDigits, List.foldl_append]

theorem charVal_digitChar {d : Nat} (h : d < 10) :
    charVal (Nat.digitChar d) = d := by
  interval_cases d <;> decide

theorem isDigit_digitChar {d : Nat} (h : d < 10) :
    (Nat.digitChar d).isDigit = true := by
  interval_cases d <;> decide

theorem parseDigits_natDigitsRev :
    ∀ fuel n, n ≤ fuel → parseDigits (natDigitsRev fuel n) = n := by
  intro fuel
  induction fuel with
  | zero =>
    intro n hn
    interval_cases n
    decide
  | succ fuel ih =>
    intro n hn
    by_cases h0 : n = 0
    · subst h0; simp [natDigitsRev, parseDigits]
    · have hdiv : n / 10 ≤ fuel := by
        have := Nat.div_lt_self (Nat.pos_of_ne_zero h0) (by decide : 1 < 10)
        omega
      have hmod : n % 10 < 10 := Nat.mod_lt _ (by decide)
      simp only [natDigitsRev, h0, if_false]
      rw [parseDigits_append_singleton, ih _ hdiv, charVal_digitChar hmod]
      omega

theorem parseDigits_renderNat (n : Nat) : parseDigits (renderNat n) = n := by
  by_cases h0 : n = 0
  · subst h0; decide
  · simp only [renderNat, h0, if_false]
    exact parseDigits_natDigitsRev n n le_rfl

theorem renderNat_injective : Function.Injective renderNat := by
  intro a b h
  have := parseDigits_renderNat a
  rw [h, parseDigits_renderNat] at this
  omega

theorem mem_natDigitsRev_isDigit :
    ∀ fuel n c, c ∈ natDigitsRev fuel n → c.isDigit = true := by
  intro fuel
  induction fuel with
  | zero => intro n c hc; simp [natDigitsRev] at hc
  | succ fuel ih =>
    intro n c hc
    by_cases h0 : n = 0
    · simp [natDigitsRev, h0] at hc
    · simp only [natDigitsRev, h0, if_false, List.mem_append,
        List.mem_singleton] at hc
      rcases hc with hc | hc
      · exact ih _ _ hc
      · subst hc; exact isDigit_digitChar (Nat.mod_lt _ (by decide))

theorem mem_renderNat_isDigit {n : Nat} {c : Char} (hc : c ∈ renderNat n) :
    c.isDigit = true := by
  by_cases h0 : n = 0
  · subst h0; simp [renderNat] at hc; subst hc; decide
  · simp only [renderNat, h0, if_false] at hc
    exact mem_natDigitsRev_isDigit n n c hc

theorem renderNat_ne_nil (n : Nat) : renderNat n ≠ [] := by
  by_cases h0 : n = 0
  · subst h0; decide
  · simp only [renderNat, h0, if_false]
    cases n with
    | zero => omega
    | succ m =>
      simp only [natDigitsRev, Nat.succ_ne_zero, if_false]
      exact List.append_ne_nil_of_right_ne_nil _ (by simp)

theorem takeWhile_eq_self {p : Char → Bool} :
    ∀ l : List Char, (∀ c ∈ l, p c = true) → l.takeWhile p = l := by
  intro l
  induction l with
  | nil => intro _; rfl
  | cons a as ih =>
    intro h
    have ha := h a (List.mem_cons_self _ _)
    simp [List.takeWhile, ha, ih (fun c hc => h c (List.mem_cons_of_mem _ hc))]

theorem parseIntJS_renderNat (n : Nat) : parseIntJS (renderNat n) = some (n : Int) := by
  obtain ⟨c, rest, hcr⟩ : ∃ c rest, renderNat n = c :: rest := by
    cases h : renderNat n with
    | nil => exact absurd h (renderNat_ne_nil n)
    | cons c rest => exact ⟨c, rest, rfl⟩
  have hcd : c.isDigit = true := mem_renderNat_isDigit (by rw [hcr]; exact List.mem_cons_self _ _)
  have hminus : c ≠ '-' := by intro h; rw [h] at hcd; exact absurd hcd (by decide)
  have hplus : c ≠ '+' := by intro h; rw [h] at hcd; exact absurd hcd (by decide)
  have htake : (c :: rest).takeWhile (fun x => x.isDigit) = c :: rest := by
    apply takeWhile_eq_self
    intro x hx
    exact mem_renderNat_isDigit (by rw [hcr]; exact hx)
  have hpd : parseDigits (c :: rest) = n := by
    rw [← hcr]; exact parseDigits_renderNat n
  rw [hcr]
  simp [parseIntJS, hminus, hplus, parseLeadingNat, htake, hpd]

theorem isPrefixOf_append_self (p r : List Char) :
    p.isPrefixOf (p ++ r) = true := by
  induction p with
  | nil => cases r <;> rfl
  | cons a as ih => simp [List.isPrefixOf, ih]

theorem jsMaxList_append_singleton (l : List (Option Int)) (x : Option Int)
    (hl : l ≠ []) : jsMaxList (l ++ [x]) = jsMax (jsMaxList l) x := by
  cases l with
  | nil => exact absurd rfl hl
  | cons y ys => simp [jsMaxList, List.foldl_append]

theorem jsMaxList_map_range :
    ∀ k : Nat, jsMaxList ((List.range (k + 1)).map (fun j => some ((j : Nat) : Int)))
      = some ((k : Nat) : Int) := by
  intro k
  induction k with
  | zero => decide
  | succ k ih =>
    rw [List.range_succ, List.map_append]
    simp only [List.map_cons, List.map_nil]
    rw [jsMaxList_append_singleton _ _ (by simp), ih]
    simp only [jsMax]
    exact congrArg some (max_eq_right (by exact_mod_cast Nat.le_succ k))

theorem renderInt_natCast_add_one (k : Nat) :
    renderInt ((k : Int) + 1) = renderNat (k + 1) := by
  have h1 : ((k : Int) + 1) = ((k + 1 : Nat) : Int) := by push_cast; ring
  rw [h1]
  simp only [renderInt]
  rw [if_neg (not_lt.mpr (Int.natCast_nonneg _)), Int.toNat_natCast]

/-! ## Claim C1 -/

/-- **C1.** For every upstream version string `v` and published list `P`:
if `P` contains no version starting with `{FRAMEWORK_MAJOR_VERSION}.{major(v)}.`,
`calculatePackageVersion` returns `{FRAMEWORK_MAJOR_VERSION}.{major(v)}.0`;
and if `P` is exactly `{F}.{major(v)}.0 .. {F}.{major(v)}.k`, it returns
`{F}.{major(v)}.(k+1)`, which is not an element of `P`. -/
theorem c1_version_resolver (v : List Char) (P : List (List Char)) :
    ((∀ w ∈ P, (versionPrefixOf v).isPrefixOf w = false) →
      calculatePackageVersion v P = versionPrefixOf v ++ ['0']) ∧
    (∀ k : Nat, P = (List.range (k + 1)).map (fun j => versionPrefixOf v ++ renderNat j) →
      calculatePackageVersion v P = versionPrefixOf v ++ renderNat (k + 1) ∧
      calculatePackageVersion v P ∉ P) := by
  constructor
  · intro h
    have hfil : P.filter (fun w => (versionPrefixOf v).isPrefixOf w) = [] := by
      apply List.filter_eq_nil_iff.mpr
      intro a ha
      simp [h a ha]
    simp only [calculatePackageVersion, hfil]
    simp [renderNat]
  · intro k hP
    subst hP
    have hfil : ((List.range (k + 1)).map (fun j => versionPrefixOf v ++ renderNat j)).filter
        (fun w => (versionPrefixOf v).isPrefixOf w)
        = (List.range (k + 1)).map (fun j => versionPrefixOf v ++ renderNat j) := by
      apply List.filter_eq_self.mpr
      intro a ha
      obtain ⟨j, _, rfl⟩ := List.mem_map.mp ha
      exact isPrefixOf_append_self _ _
    have hfun : ((fun w => parseIntJS (w.drop (versionPrefixOf v).length)) ∘
        (fun j => versionPrefixOf v ++ renderNat j)) = fun j : Nat => some ((j : Nat) : Int) := by
      funext j
      simp only [Function.comp_apply, List.drop_left]
      exact parseIntJS_renderNat j
    have hmax : jsMaxList ((((List.range (k + 1)).map
          (fun j => versionPrefixOf v ++ renderNat j)).map
        (fun w => parseIntJS (w.drop (versionPrefixOf v).length))))
        = some ((k : Nat) : Int) := by
      rw [List.map_map, hfun]
      exact jsMaxList_map_range k
    have hres : calculatePackageVersion v
        ((List.range (k + 1)).map (fun j => versionPrefixOf v ++ renderNat j))
        = versionPrefixOf v ++ renderNat (k + 1) := by
      simp only [calculatePackageVersion, hfil, hmax]
      rw [if_neg (by simp)]
      rw [renderInt_natCast_add_one]
    refine ⟨hres, ?_⟩
    rw [hres]
    intro hmem
    obtain ⟨j, hj, heq⟩ := List.mem_map.mp hmem
    have hdrop := congrArg (List.drop (versionPrefixOf v).length) heq
    rw [List.drop_left, List.drop_left] at hdrop
    have : j = k + 1 := renderNat_injective hdrop
    rw [List.mem_range] at hj
    omega

/-- Witness for C1 at upstream version `35.0.2`: a non-matching published
list yields `0.35.0`; the list `0.35.0, 0.35.1` yields `0.35.2`,
which is not among the published versions. -/
theorem c1_version_resolver_witness :
    calculatePackageVersion ("35.0.2".toList) ["1.2.3".toList]
      = versionPrefixOf ("35.0.2".toList) ++ ['0'] ∧
    calculatePackageVersion ("35.0.2".toList)
        ((List.range 2).map (fun j => versionPrefixOf ("35.0.2".toList) ++ renderNat j))
      = versionPrefixOf ("35.0.2".toList) ++ renderNat 2 ∧
    calculatePackageVersion ("35.0.2".toList)
        ((List.range 2).map (fun j => versionPrefixOf ("35.0.2".toList) ++ renderNat j))
      ∉ (List.range 2).map (fun j => versionPrefixOf ("35.0.2".toList) ++ renderNat j) := by
  refine ⟨(c1_version_resolver _ _).1 ?_,
    ((c1_version_resolver _ _).2 1 rfl).1,
    ((c1_version_resolver _ _).2 1 rfl).2⟩
  intro w hw
  simp only [List.mem_singleton] at hw
  subst hw
  decide

/-! ## Claim C2 -/

/-- **C2 (code bug).** The resolver does **not** exclude malformed published
versions: a published entry `0.35.beta` matches the text filter, its patch
segment parses to `NaN`, `Math.max` is poisoned, and the resolver returns the
malformed string `0.35.NaN` instead of a well-formed `0.35.{patch}` —
even though well-formed entries (`0.35.0`) are also present. -/
theorem c2_malformed_patch_not_excluded :
    calculatePackageVersion ("35.0.2".toList) ["0.35.0".toList, "0.35.beta".toList]
      = "0.35.NaN".toList := by decide

/-! ## Claim C10 (`src/registry/src/types.ts`, `getTargetId`) -/

/-- A `Target` from `src/registry/src/types.ts`: a (platform, arch) pair. -/
structure Target where
  platform : List Char
  arch : List Char

/-- Runtime argument of `getTargetId`: the implementation dispatches on
`typeof platformOrTarget === 'object'`. -/
inductive TargetIdArg
  | target (t : Target)
  | platformStr (p : List Char)

/-- `getTargetId` from `src/registry/src/types.ts` lines 22–32: the single
implementation behind both overloads.  The one-argument overload leaves
`arch` as `undefined` (`none`); JS interpolation would render an absent
`arch` as the text `undefined`, but the overload signatures forbid that
combination. -/
def getTargetId (platformOrTarget : TargetIdArg) (arch : Option (List Char)) : List Char :=
  match platformOrTarget with
  | .target t => t.platform ++ '-' :: t.arch
  | .platformStr p =>
      p ++ '-' :: (match arch with | some a => a | none => "undefined".toList)

/-- **C10.** The two overloads of `getTargetId` agree: for every `Target`
`⟨p, a⟩`, `getTargetId(t)` equals `getTargetId(p, a)`, and both equal
`p ++ "-" ++ a`. -/
theorem c10_getTargetId_overloads_agree (p a : List Char) :
    getTargetId (.target ⟨p, a⟩) none = getTargetId (.platformStr p) (some a) ∧
    getTargetId (.target ⟨p, a⟩) none = p ++ '-' :: a :=
  ⟨rfl, rfl⟩

/-! ## Claim C3 — registry fetch error handling

`fetchPublishedMetadata` (`src/cli/src/npm.ts` lines 28–52) versus the CLI's
inline fetch in `calculatePackageVersion`
(`src/cli/src/commands/generate.ts` lines 143–151).  The outcome of the
`fetch` call is abstracted: either the promise rejects with a
connectivity-class `TypeError` (`networkError`), or it resolves to a
response with a status code and a parsed `versions` key set. -/

/-- A resolved registry response: HTTP status and the keys of the
`versions` map of the JSON body. -/
structure RegistryResponse where
  status : Nat
  versions : List (List Char)

/-- Outcome of `await fetch(url)`. -/
inductive FetchResult
  | ok (r : RegistryResponse)
  | networkError

/-- `Response.ok`: status in the inclusive range 200–299. -/
def responseOk (status : Nat) : Bool := 200 ≤ status && status ≤ 299

/-- `fetchPublishedMetadata` from `src/cli/src/npm.ts` lines 28–52:
404 → empty map; other non-2xx → throw carrying the status; connectivity
`TypeError` → empty map (the rethrown `Error` of the non-ok branch is not a
`TypeError`, so it escapes the catch). -/
def fetchPublishedMetadata : FetchResult → Except Nat (List (List Char))
  | .networkError => .ok []
  | .ok r =>
    if r.status = 404 then .ok []
    else if !responseOk r.status then .error r.status
    else .ok r.versions

/-- The CLI's inline fetch in `calculatePackageVersion`
(`src/cli/src/commands/generate.ts` lines 141–151): `publishedVersions`
stays `[]` unless `response.ok`, and the bare `catch` swallows every
rejection — no status is ever surfaced. -/
def cliFetchPublishedVersions : FetchResult → List (List Char)
  | .networkError => []
  | .ok r => if responseOk r.status then r.versions else []

/-- **C3 (code bug).** `fetchPublishedMetadata` behaves as the claim states
(connectivity failure and 404 → empty set; a 500 → surfaced error carrying
the status), but the CLI's inline resolver silently proceeds with an empty
published-version set on a 500 — despite its own comment scoping the
fallback to network errors — so a 5xx is treated as "unpublished" on the
pipeline's actual resolution path. -/
theorem c3_nonok_status_swallowed_by_cli :
    fetchPublishedMetadata .networkError = .ok [] ∧
    fetchPublishedMetadata (.ok ⟨404, ["0.35.0".toList]⟩) = .ok [] ∧
    fetchPublishedMetadata (.ok ⟨500, ["0.35.0".toList]⟩) = .error 500 ∧
    cliFetchPublishedVersions (.ok ⟨500, ["0.35.0".toList]⟩) = [] :=
  ⟨rfl, rfl, rfl, rfl⟩

/-! ## Claim C5 — cleanup of the downloaded archive

Control-flow skeleton of the two acquisition pipelines, tracking whether
`download.zip` still exists when the pipeline returns or throws.  Stage
outcomes are oracle booleans; each branch mirrors one `await` that can
throw. -/

/-- Which effectful stages of one pipeline run succeed. -/
structure StageOutcomes where
  fetchOk : Bool
  streamOk : Bool
  extractOk : Bool
  stripNeeded : Bool
  stripOk : Bool
  hasVerify : Bool
  verifyOk : Bool

/-- Pipeline stages that can fail. -/
inductive Stage
  | download
  | extract
  | strip
  | verify
deriving DecidableEq

/-- `downloadAndExtract` from `src/cli/src/commands/generate.ts`
lines 170–241, reduced to (failed stage, does `download.zip` exist at the
end).  `fetch` failing or a non-ok response throws before the write stream
is created (no zip); `pipeline` failing leaves a partial zip; the unzip
subprocess failing throws at line 190–192 with the zip on disk; the
strip-`for`-loop failing (line 198) likewise; the chmod loop swallows its
errors (lines 210–215); `fs.rm(zipPath)` runs at line 219, only after all
of the above; verification failures throw after the zip was removed. -/
def cliDownloadAndExtract (o : StageOutcomes) : Option Stage × Bool :=
  if !o.fetchOk then (some .download, false)
  else if !o.streamOk then (some .download, true)
  else if !o.extractOk then (some .extract, true)
  else if o.stripNeeded && !o.stripOk then (some .strip, true)
  else if o.hasVerify && !o.verifyOk then (some .verify, false)
  else (none, false)

/-- `downloadAndExtractPlatform` from `src/generator/src/download.ts`
lines 153–182: `downloadFile`, then `extractToVendor` — whose
`try/finally` (lines 54–84) removes the zip on success **and** on
extraction/chmod failure — then `verifyBinaries`. -/
def generatorDownloadAndExtractPlatform (o : StageOutcomes) : Option Stage × Bool :=
  if !o.fetchOk then (some .download, false)
  else if !o.streamOk then (some .download, true)
  else if !o.extractOk then (some .extract, false)
  else if o.hasVerify && !o.verifyOk then (some .verify, false)
  else (none, false)

/-- **C5 (code bug).** Cleanup of `download.zip` is **not** unconditional in
the CLI pipeline: when extraction fails (e.g. a corrupt archive), the CLI's
`downloadAndExtract` throws with the archive still on disk, because the
`fs.rm(zipPath)` is straight-line code after extraction rather than a
`finally` — unlike the generator's `extractToVendor`, which removes the
zip on the same failure. -/
theorem c5_zip_left_behind_on_extract_failure :
    cliDownloadAndExtract ⟨true, true, false, true, true, true, true⟩
      = (some Stage.extract, true) ∧
    generatorDownloadAndExtractPlatform ⟨true, true, false, true, true, true, true⟩
      = (some Stage.extract, false) := by
  decide

/-! ## Claim C4 — Verifier behaviour on a missing binary

`verifyBinaries` (`src/generator/src/download.ts` lines 113–148) and the
CLI's inline verification loop (`src/cli/src/commands/generate.ts`
lines 223–240).  The filesystem is the list of existing file paths; the
result of spawning a binary is an oracle `(exit code, combined output)`. -/

/-- `.exe` on Windows-class platforms, empty elsewhere (`getExeExtension`). -/
def exeExt (win : Bool) : List Char := if win then ".exe".toList else []

/-- POSIX-style `path.join(dir, rel)` for a directory without trailing
slash and a relative path (the only shape the sources build). -/
def pathJoin (a b : List Char) : List Char := a ++ '/' :: b

/-- `path.basename` on a normalized relative path: the last `/`-segment. -/
def basename (s : List Char) : List Char := (splitOnChar '/' s).getLastD []

/-- White space recognised by `String.prototype.trim` (the subset the
sources can meet in subprocess output). -/
def isJsWhitespace (c : Char) : Bool :=
  c = ' ' || c = '\t' || c = '\n' || c = '\r'

/-- `String.prototype.trim`. -/
def jsTrim (s : List Char) : List Char :=
  ((s.dropWhile isJsWhitespace).reverse.dropWhile isJsWhitespace).reverse

/-- `output.trim().split('\n')[0]` — the first line reported on failure. -/
def firstLineOf (s : List Char) : List Char :=
  (splitOnChar '\n' (jsTrim s)).headD []

/-- Oracle for `runCommand`: binary path and argument list to
`(exit code, combined stdout+stderr)`. -/
def RunOracle : Type := List Char → List (List Char) → Nat × List Char

/-- `command.split(' ')[0]` — the relative binary path of a verification
command. -/
def cmdBinary (command : List Char) : List Char :=
  (splitOnChar ' ' command).headD []

/-- `command.split(' ').slice(1)` — the argument list. -/
def cmdArgs (command : List Char) : List (List Char) :=
  (splitOnChar ' ' command).tail

/-- Errors thrown by verification. -/
inductive VerifyError
  | binaryNotFound (binaryPath : List Char)
  | verificationFailed (binaryName : List Char) (code : Nat) (firstLine : List Char)
deriving DecidableEq

/-- The generator Verifier's binary resolution (`download.ts` lines
124–133): the path with the platform suffix if it exists, else the bare
path if it exists, else `none`. -/
def resolveVerifyTarget (win : Bool) (fs : List (List Char))
    (vendorDir bp : List Char) : Option (List Char) :=
  if fs.contains (pathJoin vendorDir (bp ++ exeExt win)) then
    some (pathJoin vendorDir (bp ++ exeExt win))
  else if fs.contains (pathJoin vendorDir bp) then
    some (pathJoin vendorDir bp)
  else none

/-- `verifyBinaries` from `src/generator/src/download.ts` lines 113–148:
fail-fast loop over the commands; an unresolvable binary throws
`Binary not found: <path>` (line 136) before any spawn; a nonzero exit
throws with the basename, the code and the first output line (line 145). -/
def verifyBinaries (win : Bool) (fs : List (List Char)) (run : RunOracle)
    (vendorDir : List Char) : List (List Char) → Except VerifyError Unit
  | [] => .ok ()
  | command :: rest =>
    match resolveVerifyTarget win fs vendorDir (cmdBinary command) with
    | none => .error (.binaryNotFound (cmdBinary command))
    | some targetPath =>
      if (run targetPath (cmdArgs command)).1 = 0 then
        verifyBinaries win fs run vendorDir rest
      else
        .error (.verificationFailed (basename (cmdBinary command))
          (run targetPath (cmdArgs command)).1
          (firstLineOf (run targetPath (cmdArgs command)).2))

/-- The CLI verification loop's resolution (`generate.ts` line 229): the
suffixed path if it exists, otherwise the **bare path with no existence
check** — resolution cannot fail. -/
def cliResolveVerifyTarget (win : Bool) (fs : List (List Char))
    (vendorDir bp : List Char) : List Char :=
  if fs.contains (pathJoin vendorDir (bp ++ exeExt win)) then
    pathJoin vendorDir (bp ++ exeExt win)
  else pathJoin vendorDir bp

/-- The CLI's verification loop (`generate.ts` lines 225–239), additionally
returning the list of `(path, args)` spawn calls it performs. -/
def cliVerify (win : Bool) (fs : List (List Char)) (run : RunOracle)
    (vendorDir : List Char) :
    List (List Char) → Except VerifyError Unit × List (List Char × List (List Char))
  | [] => (.ok (), [])
  | command :: rest =>
    if (run (cliResolveVerifyTarget win fs vendorDir (cmdBinary command))
        (cmdArgs command)).1 = 0 then
      ((cliVerify win fs run vendorDir rest).1,
        (cliResolveVerifyTarget win fs vendorDir (cmdBinary command), cmdArgs command)
          :: (cliVerify win fs run vendorDir rest).2)
    else
      (.error (.verificationFailed (basename (cmdBinary command))
          (run (cliResolveVerifyTarget win fs vendorDir (cmdBinary command))
            (cmdArgs command)).1
          (firstLineOf (run (cliResolveVerifyTarget win fs vendorDir (cmdBinary command))
            (cmdArgs command)).2)),
        [(cliResolveVerifyTarget win fs vendorDir (cmdBinary command), cmdArgs command)])

/-- **C4 counterexample.** The claim fails on the CLI verification loop:
with command `adb --version` against an empty vendor root, the CLI resolves
to the bare (nonexistent) path and proceeds to spawn it; the only error it
can surface comes from the spawn result, not from a missing-binary check. -/
theorem c4_cli_proceeds_to_spawn_missing_binary :
    (cliVerify false [] (fun _ _ => (1, [])) ("/v".toList) ["adb --version".toList]).2
      = [("/v/adb".toList, ["--version".toList])] ∧
    (cliVerify false [] (fun _ _ => (1, [])) ("/v".toList) ["adb --version".toList]).1
      = .error (.verificationFailed ("adb".toList) 1 []) :=
  ⟨rfl, rfl⟩

/-- **C4 (amended).** In the generator's Verifier (`verifyBinaries`), once
every earlier command has verified successfully, a command whose binary
path resolves to no existing file — neither with the platform suffix nor
bare — raises `Binary not found` naming that binary, for every filesystem,
spawn oracle and platform (in particular the error does not depend on any
spawn result). -/
theorem c4_verifier_raises_on_missing_binary (win : Bool) (fs : List (List Char))
    (run : RunOracle) (vendorDir : List Char) (pre : List (List Char))
    (cmd : List Char) (post : List (List Char))
    (hpre : verifyBinaries win fs run vendorDir pre = .ok ())
    (hmiss : resolveVerifyTarget win fs vendorDir (cmdBinary cmd) = none) :
    verifyBinaries win fs run vendorDir (pre ++ cmd :: post)
      = .error (.binaryNotFound (cmdBinary cmd)) := by
  induction pre with
  | nil => simp [verifyBinaries, hmiss]
  | cons c cs ih =>
    rw [List.cons_append]
    cases hres : resolveVerifyTarget win fs vendorDir (cmdBinary c) with
    | none =>
      simp only [verifyBinaries, hres] at hpre
      exact Except.noConfusion hpre
    | some t =>
      simp only [verifyBinaries, hres] at hpre ⊢
      by_cases hcode : (run t (cmdArgs c)).1 = 0
      · rw [if_pos hcode] at hpre ⊢
        exact ih hpre
      · rw [if_neg hcode] at hpre
        exact absurd hpre (by simp)

/-- Witness for C4: verifying `adb --version` against an empty vendor root
raises `Binary not found: adb` in the generator Verifier. -/
theorem c4_verifier_witness :
    verifyBinaries false [] (fun _ _ => (0, [])) ("/v".toList) ["adb --version".toList]
      = .error (.binaryNotFound ("adb".toList)) :=
  c4_verifier_raises_on_missing_binary false [] (fun _ _ => (0, [])) ("/v".toList)
    [] ("adb --version".toList) [] rfl (by decide)

/-! ## Claim C6 — normalization idempotence

The strip-`stripPrefix` normalization of `downloadAndExtract`
(`src/cli/src/commands/generate.ts` lines 195–202).  The vendor directory
is modelled as a list of relative file paths given by their `/`-components;
the prefix directory exists iff some path starts with that component.
`fs.readdir` of a missing directory rejects with `ENOENT`; the chmod pass
(lines 204–216) swallows its errors and does not change the path set, so it
is omitted from the state. -/

/-- Error state of the normalizer model. -/
inductive NormError
  | enoent (dir : List Char)
deriving DecidableEq

/-- Lines 196–202: `readdir(prefixDir)` (throws `ENOENT` when the prefix
directory does not exist), then `rename` of each child one level up, then
`rmdir` of the now-empty prefix directory. -/
def stripPrefixNorm (s : List Char) (ps : List (List (List Char))) :
    Except NormError (List (List (List Char))) :=
  if ps.any (fun p => p.head? == some s) then
    .ok (ps.map (fun p =>
      match p with
      | [] => []
      | x :: rest => if x == s then rest else x :: rest))
  else .error (.enoent s)

/-- Line 196: `if (config.stripPrefix)` — `undefined` and the empty string
are falsy, skipping the strip step entirely. -/
def normalizeVendor (stripPfx : Option (List Char))
    (ps : List (List (List Char))) : Except NormError (List (List (List Char))) :=
  match stripPfx with
  | none => .ok ps
  | some s => if s.isEmpty then .ok ps else stripPrefixNorm s ps

/-- **C6 counterexample.** Normalizing `platform-tools/adb` with
`stripPrefix = "platform-tools"` yields `adb`; running the same
normalization again on the result errors with `ENOENT` on the now-missing
prefix directory — it is **not** a no-op that completes without error. -/
theorem c6_second_normalization_errors :
    stripPrefixNorm ("platform-tools".toList)
        [["platform-tools".toList, "adb".toList]]
      = .ok [["adb".toList]] ∧
    stripPrefixNorm ("platform-tools".toList) [["adb".toList]]
      = .error (.enoent ("platform-tools".toList)) :=
  ⟨rfl, rfl⟩

/-- **C6 (amended).** After the prefix directory has been removed (no path
begins with the `stripPrefix` component any more), a second run of the
normalizer fails with `ENOENT` from `readdir` of the missing prefix
directory rather than being a no-op; normalization is a no-op only when no
`stripPrefix` is configured. -/
theorem c6_normalizer_second_run_errors (s : List Char)
    (ps : List (List (List Char))) (h : ∀ p ∈ ps, p.head? ≠ some s) :
    stripPrefixNorm s ps = .error (.enoent s) ∧
    normalizeVendor none ps = .ok ps := by
  refine ⟨?_, rfl⟩
  have hcond : ps.any (fun p => p.head? == some s) = false := by
    rw [List.any_eq_false]
    intro p hp
    simpa using h p hp
  simp [stripPrefixNorm, hcond]

/-- Witness for C6: a vendor directory holding only `adb` re-normalized
with `stripPrefix = "platform-tools"` errors with `ENOENT`. -/
theorem c6_normalizer_witness :
    stripPrefixNorm ("platform-tools".toList) [["fastboot".toList]]
      = .error (.enoent ("platform-tools".toList)) ∧
    normalizeVendor none [["fastboot".toList]] = .ok [["fastboot".toList]] :=
  c6_normalizer_second_run_errors ("platform-tools".toList) [["fastboot".toList]]
    (by decide)

/-! ## Claim C7 — invocation environment construction

`buildEnv` from the runtime package (`src/unnamed/part_010` lines 38–62;
identical logic inline in `runBinary`, `src/unnamed/part_007` lines 31–58)
and the env handling of the template-generated facade runners
(`src/generator/src/download.ts` lines 311–341, `src/unnamed/part_006`
lines 86–104).  Environments are partial maps from variable names to
string values; `undefined` lookups are `none`. -/

/-- A process environment. -/
def Env : Type := List Char → Option (List Char)

/-- `process.platform` values distinguished by the sources. -/
inductive NodePlatform
  | darwin
  | linux
  | win32
  | freebsd
  | aix
deriving DecidableEq

/-- `getLibraryPathEnvVar` from `src/core/src/platform.ts` lines 50–60 and
its copies in the runtime package: `DYLD_LIBRARY_PATH` on darwin, `PATH`
on win32, `LD_LIBRARY_PATH` otherwise. -/
def getLibraryPathEnvVar : NodePlatform → List Char
  | .darwin => "DYLD_LIBRARY_PATH".toList
  | .win32 => "PATH".toList
  | _ => "LD_LIBRARY_PATH".toList

/-- `path.delimiter`: `;` on win32, `:` elsewhere. -/
def pathDelimiter : NodePlatform → Char
  | .win32 => ';'
  | _ => ':'

/-- POSIX `path.dirname` on a normalized path: everything before the last
`/`; `.` when there is no slash, `/` when the last slash is leading. -/
def pathDirname (s : List Char) : List Char :=
  match s.reverse.dropWhile (fun c => c ≠ '/') with
  | [] => ['.']
  | _ :: rest => if rest.isEmpty then ['/'] else rest.reverse

/-- The sibling `lib` directory of a binary:
`path.join(path.dirname(path.dirname(binaryPath)), 'lib')`. -/
def libDirOf (binaryPath : List Char) : List Char :=
  pathJoin (pathDirname (pathDirname binaryPath)) ("lib".toList)

/-- `buildEnv` from `src/unnamed/part_010` lines 38–62: spread
`{...process.env, ...env}` (caller overlay wins), set `PATH` to the binary
directory prepended to `env.PATH || process.env.PATH || ''`, then on win32
additionally prepend the lib directory to `PATH`, and on every other
platform set the library-path variable to the lib directory prepended to
`env[v] || process.env[v] || ''` when that chain is truthy, or the lib
directory alone otherwise. -/
def buildEnv (p : NodePlatform) (procEnv callerEnv : Env)
    (binaryPath : List Char) : Env :=
  let binaryDir := pathDirname binaryPath
  let libDir := pathJoin (pathDirname binaryDir) ("lib".toList)
  let libVar := getLibraryPathEnvVar p
  let delim := pathDelimiter p
  let base : Env := fun k =>
    match callerEnv k with
    | some v => some v
    | none => procEnv k
  let withPath : Env := fun k =>
    if k == "PATH".toList then
      some (binaryDir ++ delim ::
        jsOr (callerEnv ("PATH".toList)) (jsOr (procEnv ("PATH".toList)) []))
    else base k
  if libVar == "PATH".toList then
    fun k =>
      if k == "PATH".toList then
        some (libDir ++ delim :: (withPath ("PATH".toList)).getD [])
      else withPath k
  else
    fun k =>
      if k == libVar then
        some (if (jsOr (callerEnv libVar) (jsOr (procEnv libVar) [])).isEmpty
          then libDir
          else libDir ++ delim :: jsOr (callerEnv libVar) (jsOr (procEnv libVar) []))
      else withPath k

/-- Env handling of the template-generated facade runners
(`src/generator/src/download.ts` lines 311–341, `src/unnamed/part_006`
lines 86–104): `nodeSpawn(binaryPath, args, opts)` passes the caller's
options through unchanged, so the child environment is the caller-supplied
`opts.env` when present and the inherited `process.env` otherwise — no
library-path injection happens. -/
def generatedRunnerSpawnEnv (procEnv : Env) (optsEnv : Option Env) : Env :=
  match optsEnv with
  | some e => e
  | none => procEnv

/-- A sample ambient environment: `PATH=/usr/bin`,
`DYLD_LIBRARY_PATH=/old`, nothing else. -/
def procEnvSample : Env := fun k =>
  if k == "PATH".toList then some ("/usr/bin".toList)
  else if k == "DYLD_LIBRARY_PATH".toList then some ("/old".toList)
  else none

/-- A sample caller overlay carrying only `HOME=/root`. -/
def callerEnvSample : Env := fun k =>
  if k == "HOME".toList then some ("/root".toList) else none

/-- **C7 counterexample.** An invocation through a template-generated
facade runner on a POSIX platform performs no injection: with no caller
options, the spawned environment is the inherited `process.env` itself, so
`LD_LIBRARY_PATH` is absent rather than equal to the sibling lib
directory. -/
theorem c7_generated_runner_injects_nothing :
    generatedRunnerSpawnEnv procEnvSample none ("LD_LIBRARY_PATH".toList) = none :=
  rfl

/-- **C7 (amended).** For the runtime package's `buildEnv` (used by
`createBinaryRunner` and `runBinary`) on any non-win32 platform: the
library-path variable is `DYLD_LIBRARY_PATH` on darwin and
`LD_LIBRARY_PATH` otherwise, and its value in the constructed environment
is the sibling `lib` directory prepended (with the path delimiter) to the
caller-supplied-or-inherited value when one is truthy, and the lib
directory alone otherwise; `PATH` gets the binary's own directory
prepended to the caller-supplied-or-inherited `PATH`. -/
theorem c7_buildEnv_posix (p : NodePlatform) (procEnv callerEnv : Env)
    (binaryPath : List Char) (hp : p ≠ NodePlatform.win32) :
    ((p = NodePlatform.darwin →
        getLibraryPathEnvVar p = "DYLD_LIBRARY_PATH".toList) ∧
      (p ≠ NodePlatform.darwin →
        getLibraryPathEnvVar p = "LD_LIBRARY_PATH".toList)) ∧
    buildEnv p procEnv callerEnv binaryPath (getLibraryPathEnvVar p)
      = some (if (jsOr (callerEnv (getLibraryPathEnvVar p))
            (jsOr (procEnv (getLibraryPathEnvVar p)) [])).isEmpty
          then libDirOf binaryPath
          else libDirOf binaryPath ++ pathDelimiter p ::
            jsOr (callerEnv (getLibraryPathEnvVar p))
              (jsOr (procEnv (getLibraryPathEnvVar p)) [])) ∧
    buildEnv p procEnv callerEnv binaryPath ("PATH".toList)
      = some (pathDirname binaryPath ++ pathDelimiter p ::
          jsOr (callerEnv ("PATH".toList)) (jsOr (procEnv ("PATH".toList)) [])) := by
  cases p with
  | win32 => exact absurd rfl hp
  | darwin => exact ⟨⟨fun _ => rfl, fun h => absurd rfl h⟩, rfl, rfl⟩
  | linux => exact ⟨⟨fun h => NodePlatform.noConfusion h, fun _ => rfl⟩, rfl, rfl⟩
  | freebsd => exact ⟨⟨fun h => NodePlatform.noConfusion h, fun _ => rfl⟩, rfl, rfl⟩
  | aix => exact ⟨⟨fun h => NodePlatform.noConfusion h, fun _ => rfl⟩, rfl, rfl⟩

/-- Witness for C7 on darwin with a binary at `/pkg/vendor/bin/ffmpeg`:
`DYLD_LIBRARY_PATH` becomes `/pkg/vendor/lib:/old` (inherited value kept,
lib dir prepended) and `PATH` becomes `/pkg/vendor/bin:/usr/bin`. -/
theorem c7_buildEnv_witness :
    buildEnv NodePlatform.darwin procEnvSample callerEnvSample
        ("/pkg/vendor/bin/ffmpeg".toList) ("DYLD_LIBRARY_PATH".toList)
      = some ("/pkg/vendor/lib:/old".toList) ∧
    buildEnv NodePlatform.darwin procEnvSample callerEnvSample
        ("/pkg/vendor/bin/ffmpeg".toList) ("PATH".toList)
      = some ("/pkg/vendor/bin:/usr/bin".toList) := by
  have h := c7_buildEnv_posix NodePlatform.darwin procEnvSample callerEnvSample
    ("/pkg/vendor/bin/ffmpeg".toList) (by decide)
  exact ⟨h.2.1.trans (by decide), h.2.2.trans (by decide)⟩

/-! ## Claim C8 — runner path resolution fails fast

`getVendorDir` / `getBinaryPath` of the generated facade
(`src/generator/src/download.ts` lines 347–384 and
`src/unnamed/part_006` lines 106–138).  The static platform-package table
is an association list built at generation time; `require.resolve` is the
injected locator, `none` meaning the throw of an unresolved module.  The
model has no notion of a system `PATH` lookup: the only way to obtain a
spawn is through a successful table lookup and package resolution. -/

/-- Errors thrown by the generated `getVendorDir`. -/
inductive RunnerError
  | unsupportedTarget (targetId : List Char) (supported : List (List Char))
  | packageNotInstalled (targetId packageName installCmd : List Char)
deriving DecidableEq

/-- Lookup in the generated `platformPackages` object literal. -/
def lookupTable (tbl : List (List Char × List Char)) (k : List Char) :
    Option (List Char) :=
  (tbl.find? (fun e => e.1 == k)).map (fun e => e.2)

/-- `getVendorDir`: no table entry for the current target → throw naming
the target and the supported list; `require.resolve` failing → throw
naming the package and the `npm install <package>` remediation; otherwise
the `vendor` directory next to the resolved `package.json`. -/
def getVendorDir (tbl : List (List Char × List Char))
    (locate : List Char → Option (List Char)) (targetId : List Char) :
    Except RunnerError (List Char) :=
  match lookupTable tbl targetId with
  | none => .error (.unsupportedTarget targetId (tbl.map (fun e => e.1)))
  | some packageName =>
    match locate (packageName ++ "/package.json".toList) with
    | none => .error (.packageNotInstalled targetId packageName
        ("npm install ".toList ++ packageName))
    | some packageJsonPath =>
        .ok (pathJoin (pathDirname packageJsonPath) ("vendor".toList))

/-- `getBinaryPath`: the vendor directory joined with the binary path and
the platform executable suffix; errors propagate. -/
def getBinaryPath (tbl : List (List Char × List Char))
    (locate : List Char → Option (List Char)) (targetId : List Char)
    (win : Bool) (binaryPath : List Char) : Except RunnerError (List Char) :=
  match getVendorDir tbl locate targetId with
  | .error e => .error e
  | .ok vd => .ok (pathJoin vd (binaryPath ++ exeExt win))

/-- A subprocess launch performed by a runner method. -/
inductive SpawnCall
  | spawned (path : List Char) (args : List (List Char))
deriving DecidableEq

/-- A runner invocation: the generated module computes
`createBinaryRunner(getBinaryPath(...))` before any method can spawn, so a
spawn happens only on a successfully resolved path. -/
def invokeBinary (tbl : List (List Char × List Char))
    (locate : List Char → Option (List Char)) (targetId : List Char)
    (win : Bool) (binaryPath : List Char) (args : List (List Char)) :
    Except RunnerError SpawnCall :=
  match getBinaryPath tbl locate targetId win binaryPath with
  | .error e => .error e
  | .ok p => .ok (.spawned p args)

/-- **C8.** For every platform-package table, locator, target and binary:
a (platform, arch) pair absent from the static table makes the invocation
throw `unsupportedTarget` before any spawn, and a mapped package that the
locator cannot resolve makes it throw `packageNotInstalled` naming the
package and the `npm install` remediation — in neither case is a
`SpawnCall` produced, and no fallback path exists in the model. -/
theorem c8_runner_fails_fast (tbl : List (List Char × List Char))
    (locate : List Char → Option (List Char)) (targetId : List Char)
    (win : Bool) (binaryPath : List Char) (args : List (List Char)) :
    (lookupTable tbl targetId = none →
      invokeBinary tbl locate targetId win binaryPath args
        = .error (.unsupportedTarget targetId (tbl.map (fun e => e.1)))) ∧
    (∀ pkg, lookupTable tbl targetId = some pkg →
      locate (pkg ++ "/package.json".toList) = none →
      invokeBinary tbl locate targetId win binaryPath args
        = .error (.packageNotInstalled targetId pkg
            ("npm install ".toList ++ pkg))) := by
  constructor
  · intro h
    simp only [invokeBinary, getBinaryPath, getVendorDir, h]
  · intro pkg h1 h2
    simp only [invokeBinary, getBinaryPath, getVendorDir, h1, h2]

/-- The static table generated for a tool shipping only `linux-x64`. -/
def sampleTargetTable : List (List Char × List Char) :=
  [("linux-x64".toList, "@binkit/ffmpeg-linux-x64".toList)]

/-- A locator on a machine where no platform package is installed. -/
def locateNothing : List Char → Option (List Char) := fun _ => none

/-- Witness for C8: on `darwin-arm64` (absent from the table) the runner
throws `unsupportedTarget`; on `linux-x64` with the package not installed
it throws `packageNotInstalled` with the remediation command. -/
theorem c8_runner_fails_fast_witness :
    invokeBinary sampleTargetTable locateNothing ("darwin-arm64".toList)
        false ("ffmpeg".toList) []
      = .error (.unsupportedTarget ("darwin-arm64".toList) ["linux-x64".toList]) ∧
    invokeBinary sampleTargetTable locateNothing ("linux-x64".toList)
        false ("ffmpeg".toList) []
      = .error (.packageNotInstalled ("linux-x64".toList)
          ("@binkit/ffmpeg-linux-x64".toList)
          ("npm install @binkit/ffmpeg-linux-x64".toList)) := by
  refine ⟨?_, ?_⟩
  · exact (c8_runner_fails_fast sampleTargetTable locateNothing
      ("darwin-arm64".toList) false ("ffmpeg".toList) []).1 (by decide)
  · exact (c8_runner_fails_fast sampleTargetTable locateNothing
      ("linux-x64".toList) false ("ffmpeg".toList) []).2
      ("@binkit/ffmpeg-linux-x64".toList) (by decide) rfl

/-! ## Claim C9 — binary-list defaulting -/

/-- `config.binaries ?? [toolName]` — the nullish-coalescing defaulting of
the pipeline (`src/cli/src/commands/generate.ts` line 205,
`src/generator/src/download.ts` line 173): only `undefined`/`null` is
replaced; an empty array passes through. -/
def effectiveBinariesPipeline (binaries : Option (List (List Char)))
    (toolName : List Char) : List (List Char) :=
  match binaries with
  | some l => l
  | none => [toolName]

/-- `getBinaryInfos` defaulting (`src/unnamed/part_006` lines 288–299):
`binaries.length > 0 ? binaries : [defaultName]`. -/
def getBinaryInfosPaths (binaries : List (List Char))
    (defaultName : List Char) : List (List Char) :=
  if binaries.length > 0 then binaries else [defaultName]

/-- `getBinaries` defaulting of the generator templates
(`src/generator/src/download.ts` lines 220–237):
`config.binaries && config.binaries.length > 0`. -/
def getBinariesPaths (binaries : Option (List (List Char)))
    (toolName : List Char) : List (List Char) :=
  match binaries with
  | some l => if l.length > 0 then l else [toolName]
  | none => [toolName]

/-- **C9 counterexample.** A tool configured with `binaries: []` keeps the
empty list on the pipeline's `?? [toolName]` sites: the effective binary
list used by the pipeline **is** empty, so it is not "never empty after
defaulting". -/
theorem c9_pipeline_keeps_empty_list :
    effectiveBinariesPipeline (some []) ("ffmpeg".toList) = [] :=
  rfl

/-- **C9 (amended).** An absent (`undefined`) binary list is defaulted to
`[toolName]` everywhere, and the template generators also default an
**empty** list, so generated packages never see an empty list — but the
pipeline's `?? [toolName]` sites pass a configured empty list through
unchanged. -/
theorem c9_binaries_defaulting (binaries : List (List Char))
    (maybeBinaries : Option (List (List Char))) (toolName defaultName : List Char) :
    getBinaryInfosPaths binaries defaultName ≠ [] ∧
    getBinariesPaths maybeBinaries toolName ≠ [] ∧
    effectiveBinariesPipeline none toolName = [toolName] := by
  refine ⟨?_, ?_, rfl⟩
  · simp only [getBinaryInfosPaths]
    split
    · exact List.ne_nil_of_length_pos (by assumption)
    · simp
  · cases maybeBinaries with
    | none => simp [getBinariesPaths]
    | some l =>
      simp only [getBinariesPaths]
      split
      · exact List.ne_nil_of_length_pos (by assumption)
      · simp
